import Mathlib

/-!
Shallow embedding of the Acontext core (server/core/acontext_core): the
ordered task store, the block tree type rules, the SOP submit handler, the
two bounded tool-calling agent loops, and the semantic search contract,
together with theorems checking the specification's claims against them.
-/

namespace Acontext

/-- Discriminated success/error value, embedding
`acontext_core.schema.result.Result`: `Result.resolve(data)` is the success
constructor, `Result.reject(err)` the domain-rejection constructor;
`ok()` is true exactly on a resolved result and `unpack()` returns
`(data, error)`. -/
inductive Result (α : Type) where
  | resolve (data : α)
  | reject (err : String)
deriving Repr, DecidableEq

/-- `Result.ok()`: true exactly for a resolved result. -/
def Result.ok {α : Type} : Result α → Bool
  | .resolve _ => true
  | .reject _ => false

/-- True exactly for a rejected result (`not r.ok()` in the source). -/
def Result.isReject {α : Type} : Result α → Bool
  | .resolve _ => false
  | .reject _ => true

/-! ## OrderedTaskStore: `insert_task` (service/data/task.py)

A session's task rows are embedded as a list of `(id, task_order)` records;
the three SQL statements of `insert_task` become three list transformations:
negate the orders above `after_order`, map every negative order `o` to
`-o + 1`, then append the new row at `after_order + 1`. -/

/-- A task row as `insert_task` sees it: its id and its `task_order` column. -/
structure TaskRow where
  id : Nat
  task_order : Int
deriving Repr, DecidableEq

/-- Step 1 of `insert_task`: `UPDATE ... WHERE task_order > after_order
SET task_order = -task_order`. -/
def negateStep (after_order : Int) (ts : List TaskRow) : List TaskRow :=
  ts.map fun t =>
    if after_order < t.task_order then { t with task_order := -t.task_order } else t

/-- Step 2 of `insert_task`: `UPDATE ... WHERE task_order < 0
SET task_order = -task_order + 1`. -/
def restoreStep (ts : List TaskRow) : List TaskRow :=
  ts.map fun t =>
    if t.task_order < 0 then { t with task_order := -t.task_order + 1 } else t

/-- Step 3 of `insert_task`: add the new task at `after_order + 1`.
The whole of `insert_task` is steps 1-3 in order (the session-scoped lock
serializes them into one atomic unit). -/
def insert_task (ts : List TaskRow) (after_order : Int) (newId : Nat) : List TaskRow :=
  restoreStep (negateStep after_order ts) ++ [{ id := newId, task_order := after_order + 1 }]

/-- The net renumbering `insert_task` is meant to achieve on old rows. -/
def shiftRow (after_order : Int) (t : TaskRow) : TaskRow :=
  if after_order < t.task_order then { t with task_order := t.task_order + 1 } else t

lemma negate_restore_eq_shift (after_order : Int) (ts : List TaskRow)
    (hpos : ∀ t ∈ ts, 0 < t.task_order) :
    restoreStep (negateStep after_order ts) = ts.map (shiftRow after_order) := by
  unfold restoreStep negateStep
  rw [List.map_map]
  refine List.map_congr_left ?_
  intro t ht
  have h0 : 0 < t.task_order := hpos t ht
  by_cases hk : after_order < t.task_order
  · simp only [Function.comp_apply, if_pos hk]
    have hneg : -t.task_order < 0 := by omega
    simp only [if_pos hneg, shiftRow, if_pos hk, neg_neg]
  · simp only [Function.comp_apply, if_neg hk]
    have hnn : ¬ t.task_order < 0 := by omega
    simp only [if_neg hnn, shiftRow, if_neg hk]

lemma shift_range_perm (N k : Nat) (hk : k ≤ N) :
    (((List.range' 1 N).map (fun n => if k < n then n + 1 else n)) ++ [k + 1]).Perm
      (List.range' 1 (N + 1)) := by
  have hsplit : List.range' 1 k ++ List.range' (1 + k) (N - k) = List.range' 1 N := by
    have h := List.range'_append 1 k (N - k) 1
    simp only [one_mul] at h
    have : N - k + k = N := by omega
    rw [this] at h
    exact h
  have hlow : (List.range' 1 k).map (fun n => if k < n then n + 1 else n) = List.range' 1 k := by
    have := List.map_congr_left (l := List.range' 1 k)
      (f := fun n => if k < n then n + 1 else n) (g := id) ?_
    · simpa using this
    · intro n hn
      have := List.mem_range'_1.mp hn
      have : ¬ k < n := by omega
      simp [this]
  have hhigh : (List.range' (1 + k) (N - k)).map (fun n => if k < n then n + 1 else n)
      = List.range' (k + 2) (N - k) := by
    have hcongr : (List.range' (1 + k) (N - k)).map (fun n => if k < n then n + 1 else n)
        = (List.range' (1 + k) (N - k)).map (fun n => 1 + n) := by
      refine List.map_congr_left ?_
      intro n hn
      have hn' := List.mem_range'_1.mp hn
      have h1 : k < n := by omega
      rw [if_pos h1]
      omega
    rw [hcongr, List.map_add_range']
    have he2 : 1 + (1 + k) = k + 2 := by omega
    rw [he2]
  have hmap : (List.range' 1 N).map (fun n => if k < n then n + 1 else n)
      = List.range' 1 k ++ List.range' (k + 2) (N - k) := by
    rw [← hsplit, List.map_append, hlow, hhigh]
  rw [hmap]
  have htarget : List.range' 1 (N + 1)
      = List.range' 1 k ++ ((k + 1) :: List.range' (k + 2) (N - k)) := by
    have h := List.range'_append 1 k (N + 1 - k) 1
    simp only [one_mul] at h
    have he : N + 1 - k + k = N + 1 := by omega
    rw [he] at h
    rw [← h]
    congr 1
    have h2 : N + 1 - k = (N - k) + 1 := by omega
    rw [h2, List.range'_succ]
    have e1 : 1 + k = k + 1 := by omega
    have e2 : k + 1 + 1 = k + 2 := by omega
    rw [e1, e2]
  rw [htarget, List.append_assoc]
  exact List.Perm.append_left _ (List.perm_append_singleton _ _)

lemma orders_pos_of_perm_range (ts : List TaskRow) (N : Nat)
    (horders : (ts.map TaskRow.task_order).Perm ((List.range' 1 N).map Int.ofNat)) :
    ∀ t ∈ ts, 0 < t.task_order := by
  intro t ht
  have hmem : t.task_order ∈ ts.map TaskRow.task_order := List.mem_map_of_mem _ ht
  have hmem' := horders.mem_iff.mp hmem
  obtain ⟨n, hn, he⟩ := List.mem_map.mp hmem'
  have hn' := List.mem_range'_1.mp hn
  rw [← he]
  exact Int.ofNat_pos.mpr (by omega)

/-- C1: on a session whose task orders are exactly `1..N`, and any
`after_order = k` with `0 ≤ k ≤ N`, `insert_task` (negate-then-restore then
insert) acts on every old row as a pure shift (`+1` above `k`, unchanged at
or below `k`), appends one new row at order `k + 1`, and the resulting
orders are exactly `1..N+1`, in particular duplicate-free. -/
theorem insert_task_renumbers (ts : List TaskRow) (N k newId : Nat)
    (horders : (ts.map TaskRow.task_order).Perm ((List.range' 1 N).map Int.ofNat))
    (hk : k ≤ N) :
    insert_task ts (k : Int) newId
      = ts.map (shiftRow (k : Int)) ++ [{ id := newId, task_order := (k : Int) + 1 }]
    ∧ ((insert_task ts (k : Int) newId).map TaskRow.task_order).Perm
        ((List.range' 1 (N + 1)).map Int.ofNat)
    ∧ ((insert_task ts (k : Int) newId).map TaskRow.task_order).Nodup := by
  have hpos := orders_pos_of_perm_range ts N horders
  have hmech : insert_task ts (k : Int) newId
      = ts.map (shiftRow (k : Int)) ++ [{ id := newId, task_order := (k : Int) + 1 }] := by
    unfold insert_task
    rw [negate_restore_eq_shift (k : Int) ts hpos]
  have hordermap : (insert_task ts (k : Int) newId).map TaskRow.task_order
      = (ts.map TaskRow.task_order).map
          (fun o => if (k : Int) < o then o + 1 else o) ++ [(k : Int) + 1] := by
    rw [hmech, List.map_append, List.map_map, List.map_map]
    congr 1
    refine List.map_congr_left ?_
    intro t _
    simp only [Function.comp_apply, shiftRow]
    by_cases hko : (k : Int) < t.task_order <;> simp [hko]
  have hperm : ((insert_task ts (k : Int) newId).map TaskRow.task_order).Perm
      ((List.range' 1 (N + 1)).map Int.ofNat) := by
    rw [hordermap]
    have h1 : ((ts.map TaskRow.task_order).map
        (fun o => if (k : Int) < o then o + 1 else o)).Perm
        (((List.range' 1 N).map Int.ofNat).map
          (fun o => if (k : Int) < o then o + 1 else o)) :=
      horders.map _
    have h2 : ((List.range' 1 N).map Int.ofNat).map
        (fun o => if (k : Int) < o then o + 1 else o)
        = ((List.range' 1 N).map (fun n => if k < n then n + 1 else n)).map Int.ofNat := by
      rw [List.map_map, List.map_map]
      refine List.map_congr_left ?_
      intro n _
      simp only [Function.comp_apply]
      by_cases hkn : k < n
      · have : (k : Int) < (n : Int) := by exact_mod_cast hkn
        simp [hkn, this]
      · have : ¬ (k : Int) < (n : Int) := by exact_mod_cast hkn
        simp [hkn, this]
    have h3 : (((List.range' 1 N).map (fun n => if k < n then n + 1 else n)).map Int.ofNat
        ++ [((k : Nat) : Int) + 1]).Perm ((List.range' 1 (N + 1)).map Int.ofNat) := by
      have hp := (shift_range_perm N k hk).map Int.ofNat
      rw [List.map_append] at hp
      simpa using hp
    exact ((h1.append_right _).trans (by rw [h2])).trans h3
  refine ⟨hmech, hperm, ?_⟩
  exact hperm.nodup_iff.mpr
    ((List.nodup_range' 1 (N + 1)).map fun a b h => Int.ofNat.inj h)

/-- Witness for `insert_task_renumbers` at a concrete session of three tasks
with orders `1,2,3` and `after_order = 1`. -/
theorem insert_task_renumbers_witness :
    (([⟨10, 1⟩, ⟨11, 2⟩, ⟨12, 3⟩] : List TaskRow).map TaskRow.task_order).Perm
        ((List.range' 1 3).map Int.ofNat)
    ∧ insert_task [⟨10, 1⟩, ⟨11, 2⟩, ⟨12, 3⟩] ((1 : Nat) : Int) 13
        = [⟨10, 1⟩, ⟨11, 3⟩, ⟨12, 4⟩, ⟨13, 2⟩] := by
  have h := insert_task_renumbers [⟨10, 1⟩, ⟨11, 2⟩, ⟨12, 3⟩] 3 1 13 (by decide) (by decide)
  exact ⟨by decide, by rw [h.1]; decide⟩

/-! ## Tool-loop controllers (llm/agent/task_sop.py, llm/agent/space_search.py)

Both loops are embedded over an abstract per-run state `σ` (the `SOPCtx` /
`SpaceSearchCtx`), an abstract tool pool (`SOP_TOOLS` / `SPACE_SEARCH_TOOLS`,
a name-keyed map to handlers), and a completion collaborator modelled as the
sequence of `llm_complete` outcomes indexed by the number of completion calls
already made.  A handler invocation yields a new state plus either a resolved
`Result`, a rejected `Result`, or a raised (non-`KeyError`) exception. -/

/-- One tool call carried by an LLM response. -/
structure ToolCall where
  id : String
  name : String
  args : String
deriving Repr, DecidableEq

/-- The normalized completion response: text content plus tool calls. -/
structure LLMResponse where
  content : String
  tool_calls : List ToolCall
deriving Repr, DecidableEq

/-- What invoking one tool handler produces besides the updated state. -/
inductive HandlerOutcome where
  | resolve (payload : String)
  | reject (err : String)
  | raised (err : String)
deriving Repr, DecidableEq

/-- A name-keyed tool pool over run state `σ`: `none` models a name that is
not registered (a `KeyError` on `TOOLS[tool_name]` in the source). -/
def ToolMap (σ : Type) : Type := String → Option (σ → String → σ × HandlerOutcome)

/-- Outcome of processing the tool calls of one model turn. -/
inductive TurnResult (σ : Type) where
  | done (st : σ) (submitted : Bool) (executed : List ToolCall)
  | fail (err : String) (executed : List ToolCall)
deriving Repr, DecidableEq

/-- The per-turn tool dispatch of `sop_agent_curd`: calls run strictly in the
order received; `already_submit` is set when a call names `submit_sop`
(before lookup, as in the source); an unregistered name becomes the
`KeyError` rejection; a handler rejection is returned as-is and a handler
exception becomes the generic rejection.  `executed` records the calls whose
handler was actually invoked, in order. -/
def sopTurn {σ : Type} (pool : ToolMap σ) :
    σ → Bool → List ToolCall → TurnResult σ
  | st, submitted, [] => .done st submitted []
  | st, submitted, c :: rest =>
    let submitted' := submitted || (c.name == "submit_sop")
    match pool c.name with
    | none => .fail ("Tool " ++ c.name ++ " not found") []
    | some h =>
      match h st c.args with
      | (st', .resolve _) =>
        match sopTurn pool st' submitted' rest with
        | .done st2 sub2 ex => .done st2 sub2 (c :: ex)
        | .fail e ex => .fail e (c :: ex)
      | (_, .reject e) => .fail e [c]
      | (_, .raised e) => .fail ("Tool " ++ c.name ++ " error: " ++ e) [c]

/-- A finished run: its returned `Result`, how many times the completion
collaborator was called, and which tool calls were executed, tagged with the
0-based iteration they ran in. -/
structure RunOutcome (α : Type) where
  result : Result α
  completions : Nat
  executed : List (Nat × ToolCall)
deriving Repr, DecidableEq

/-- The `while already_iterations < max_iterations` loop of `sop_agent_curd`,
by recursion on the remaining iteration budget; `idx` counts the completion
calls already made.  A fresh `SOPCtx` (`init`) is constructed each iteration.
Exit paths: budget exhausted, completion rejection (returned as-is), a
response without tool calls, a failed dispatch, or `submit_sop` seen this
turn; on normal exit the run resolves with `None`. -/
def sopRunAux {σ : Type} (pool : ToolMap σ) (completes : Nat → Result LLMResponse)
    (init : σ) : Nat → Nat → RunOutcome Unit
  | _, 0 => ⟨.resolve (), 0, []⟩
  | idx, budget + 1 =>
    match completes idx with
    | .reject e => ⟨.reject e, 1, []⟩
    | .resolve resp =>
      if resp.tool_calls.isEmpty then ⟨.resolve (), 1, []⟩
      else
        match sopTurn pool init false resp.tool_calls with
        | .fail e ex => ⟨.reject e, 1, ex.map (fun c => (idx, c))⟩
        | .done _ submitted ex =>
          if submitted then ⟨.resolve (), 1, ex.map (fun c => (idx, c))⟩
          else
            let rest := sopRunAux pool completes init (idx + 1) budget
            ⟨rest.result, rest.completions + 1, ex.map (fun c => (idx, c)) ++ rest.executed⟩

/-- `sop_agent_curd`: run the SOP loop from iteration 0 with the given
iteration budget (`max_iterations`, default 3 in the source). -/
def sop_agent_curd {σ : Type} (pool : ToolMap σ) (completes : Nat → Result LLMResponse)
    (init : σ) (max_iterations : Nat) : RunOutcome Unit :=
  sopRunAux pool completes init 0 max_iterations

/-- A Python-level return: either a returned `Result` value or an uncaught
exception propagating out of the function. -/
inductive PyOutcome (α : Type) where
  | ret (r : Result α)
  | exn (err : String)
deriving Repr, DecidableEq

/-- Outcome of one `space_agent_search` turn: the (lazily built) context,
whether the `finish` sentinel was seen, and the executed calls.  A call named
`finish` is looked up but its handler is skipped (`continue`). -/
inductive SpaceTurnResult (σ : Type) where
  | done (ctx : Option σ) (justFinish : Bool) (executed : List ToolCall)
  | fail (err : String) (executed : List ToolCall)
deriving Repr, DecidableEq

/-- The per-turn tool dispatch of `space_agent_search`.  `USE_CTX` starts as
`None` and `build_space_search_ctx` builds it (once) before the first
executed handler; `buildCtx` is that freshly built context. -/
def spaceTurn {σ : Type} (pool : ToolMap σ) (buildCtx : σ) :
    Option σ → Bool → List ToolCall → SpaceTurnResult σ
  | ctx, jf, [] => .done ctx jf []
  | ctx, jf, c :: rest =>
    match pool c.name with
    | none => .fail ("Tool " ++ c.name ++ " not found") []
    | some h =>
      if c.name == "finish" then spaceTurn pool buildCtx ctx true rest
      else
        match h (ctx.getD buildCtx) c.args with
        | (st', .resolve _) =>
          match spaceTurn pool buildCtx (some st') jf rest with
          | .done ctx2 jf2 ex => .done ctx2 jf2 (c :: ex)
          | .fail e ex => .fail e (c :: ex)
        | (_, .reject e) => .fail e [c]
        | (_, .raised e) => .fail ("Tool " ++ c.name ++ " error: " ++ e) [c]

/-- A finished `space_agent_search` run. -/
structure SpaceRunOutcome (σ : Type) where
  result : PyOutcome σ
  completions : Nat
  executed : List (Nat × ToolCall)
deriving Repr, DecidableEq

/-- The code after the `space_agent_search` loop:
`USE_CTX.db_session = None` followed by `Result.resolve(USE_CTX)`.  When no
context was ever built (`USE_CTX` still `None`) the attribute assignment
raises `AttributeError` instead of returning a `Result`. -/
def spaceFinish {σ : Type} (ctx : Option σ) : PyOutcome σ :=
  match ctx with
  | none => .exn "AttributeError: NoneType object has no attribute db_session"
  | some st => .ret (.resolve st)

/-- The `while already_iterations < max_iterations` loop of
`space_agent_search`.  Exit paths: budget exhausted, completion rejection,
a response without tool calls, a failed dispatch, the `finish` sentinel, or
the located-blocks accumulator (`locCount`) reaching `limit`. -/
def spaceRunAux {σ : Type} (pool : ToolMap σ) (buildCtx : σ) (locCount : σ → Nat)
    (limit : Nat) (completes : Nat → Result LLMResponse) :
    Option σ → Nat → Nat → SpaceRunOutcome σ
  | ctx, _, 0 => ⟨spaceFinish ctx, 0, []⟩
  | ctx, idx, budget + 1 =>
    match completes idx with
    | .reject e => ⟨.ret (.reject e), 1, []⟩
    | .resolve resp =>
      if resp.tool_calls.isEmpty then ⟨spaceFinish ctx, 1, []⟩
      else
        match spaceTurn pool buildCtx ctx false resp.tool_calls with
        | .fail e ex => ⟨.ret (.reject e), 1, ex.map (fun c => (idx, c))⟩
        | .done ctx' jf ex =>
          if jf then ⟨spaceFinish ctx', 1, ex.map (fun c => (idx, c))⟩
          else
            match ctx' with
            | none =>
              ⟨.exn "AttributeError: NoneType object has no attribute located_content_blocks",
                1, ex.map (fun c => (idx, c))⟩
            | some st =>
              if limit ≤ locCount st then ⟨spaceFinish ctx', 1, ex.map (fun c => (idx, c))⟩
              else
                let rest := spaceRunAux pool buildCtx locCount limit completes
                  (some st) (idx + 1) budget
                ⟨rest.result, rest.completions + 1,
                  ex.map (fun c => (idx, c)) ++ rest.executed⟩

/-- `space_agent_search`: run the search loop from iteration 0 with
`USE_CTX = None` and the given budget (`max_iterations`, default 16). -/
def space_agent_search {σ : Type} (pool : ToolMap σ) (buildCtx : σ)
    (locCount : σ → Nat) (limit : Nat) (completes : Nat → Result LLMResponse)
    (max_iterations : Nat) : SpaceRunOutcome σ :=
  spaceRunAux pool buildCtx locCount limit completes none 0 max_iterations

/-- True exactly when a handler outcome is a resolved result. -/
def HandlerOutcome.isResolve : HandlerOutcome → Bool
  | .resolve _ => true
  | .reject _ => false
  | .raised _ => false

lemma sopTurn_done_spec {σ : Type} (pool : ToolMap σ) :
    ∀ (calls : List ToolCall) (st : σ) (sub : Bool) (st' : σ) (sub' : Bool)
      (ex : List ToolCall), sopTurn pool st sub calls = .done st' sub' ex →
      ex = calls ∧ ∀ c ∈ calls, (pool c.name).isSome := by
  intro calls
  induction calls with
  | nil =>
    intro st sub st' sub' ex h
    simp only [sopTurn, TurnResult.done.injEq] at h
    simp [h.2.2.symm]
  | cons c rest ih =>
    intro st sub st' sub' ex h
    simp only [sopTurn] at h
    cases hpc : pool c.name with
    | none =>
      simp only [hpc] at h
      exact TurnResult.noConfusion h
    | some hd =>
      rcases hout : hd st c.args with ⟨st1, out⟩
      cases out with
      | resolve p =>
        simp only [hpc, hout] at h
        cases hrec : sopTurn pool st1 (sub || (c.name == "submit_sop")) rest with
        | done st2 sub2 ex2 =>
          simp only [hrec, TurnResult.done.injEq] at h
          obtain ⟨h1, h2, h3⟩ := h
          obtain ⟨hex, hall⟩ := ih st1 (sub || (c.name == "submit_sop")) st2 sub2 ex2 hrec
          subst h3
          refine ⟨by rw [hex], ?_⟩
          intro d hd'
          rcases List.mem_cons.mp hd' with hdc | hdr
          · subst hdc; simp [hpc]
          · exact hall d hdr
        | fail e ex2 =>
          simp only [hrec] at h
          exact TurnResult.noConfusion h
      | reject e =>
        simp only [hpc, hout] at h
        exact TurnResult.noConfusion h
      | raised e =>
        simp only [hpc, hout] at h
        exact TurnResult.noConfusion h

lemma sopTurn_fail_prefix {σ : Type} (pool : ToolMap σ) :
    ∀ (calls : List ToolCall) (st : σ) (sub : Bool) (e : String)
      (ex : List ToolCall), sopTurn pool st sub calls = .fail e ex → ex <+: calls := by
  intro calls
  induction calls with
  | nil =>
    intro st sub e ex h
    exact absurd h (by simp [sopTurn])
  | cons c rest ih =>
    intro st sub e ex h
    simp only [sopTurn] at h
    cases hpc : pool c.name with
    | none =>
      simp only [hpc, TurnResult.fail.injEq] at h
      rw [← h.2]
      exact List.nil_prefix
    | some hd =>
      rcases hout : hd st c.args with ⟨st1, out⟩
      cases out with
      | resolve p =>
        simp only [hpc, hout] at h
        cases hrec : sopTurn pool st1 (sub || (c.name == "submit_sop")) rest with
        | done st2 sub2 ex2 =>
          simp only [hrec] at h
          exact TurnResult.noConfusion h
        | fail e2 ex2 =>
          simp only [hrec, TurnResult.fail.injEq] at h
          rw [← h.2]
          exact List.cons_prefix_cons.mpr ⟨rfl, ih st1 _ e2 ex2 hrec⟩
      | reject e2 =>
        simp only [hpc, hout, TurnResult.fail.injEq] at h
        rw [← h.2]
        exact ⟨rest, rfl⟩
      | raised e2 =>
        simp only [hpc, hout, TurnResult.fail.injEq] at h
        rw [← h.2]
        exact ⟨rest, rfl⟩

lemma spaceTurn_done_isSome {σ : Type} (pool : ToolMap σ) (buildCtx : σ) :
    ∀ (calls : List ToolCall) (ctx : Option σ) (jf : Bool) (ctx' : Option σ)
      (jf' : Bool) (ex : List ToolCall),
      spaceTurn pool buildCtx ctx jf calls = .done ctx' jf' ex →
      ∀ c ∈ calls, (pool c.name).isSome := by
  intro calls
  induction calls with
  | nil =>
    intro ctx jf ctx' jf' ex h c hc
    exact absurd hc (List.not_mem_nil c)
  | cons c rest ih =>
    intro ctx jf ctx' jf' ex h d hd'
    simp only [spaceTurn] at h
    cases hpc : pool c.name with
    | none =>
      simp only [hpc] at h
      exact SpaceTurnResult.noConfusion h
    | some hdl =>
      rcases List.mem_cons.mp hd' with hdc | hdr
      · subst hdc; simp [hpc]
      · by_cases hfin : (c.name == "finish") = true
        · simp only [hpc, hfin, if_true] at h
          exact ih ctx true ctx' jf' ex h d hdr
        · have hfin' : (c.name == "finish") = false := by
            cases hb : (c.name == "finish") with
            | true => exact absurd hb hfin
            | false => rfl
          rcases hout : hdl (ctx.getD buildCtx) c.args with ⟨st1, out⟩
          cases out with
          | resolve p =>
            simp only [hpc, hfin', hout] at h
            cases hrec : spaceTurn pool buildCtx (some st1) jf rest with
            | done ctx2 jf2 ex2 =>
              exact ih (some st1) jf ctx2 jf2 ex2 hrec d hdr
            | fail e2 ex2 =>
              rw [hrec] at h
              exact SpaceTurnResult.noConfusion h
          | reject e2 =>
            simp only [hpc, hfin', hout] at h
            exact SpaceTurnResult.noConfusion h
          | raised e2 =>
            simp only [hpc, hfin', hout] at h
            exact SpaceTurnResult.noConfusion h

lemma spaceTurn_fail_sublist {σ : Type} (pool : ToolMap σ) (buildCtx : σ) :
    ∀ (calls : List ToolCall) (ctx : Option σ) (jf : Bool) (e : String)
      (ex : List ToolCall),
      spaceTurn pool buildCtx ctx jf calls = .fail e ex → ex.Sublist calls := by
  intro calls
  induction calls with
  | nil =>
    intro ctx jf e ex h
    exact absurd h (by simp [spaceTurn])
  | cons c rest ih =>
    intro ctx jf e ex h
    simp only [spaceTurn] at h
    cases hpc : pool c.name with
    | none =>
      simp only [hpc, SpaceTurnResult.fail.injEq] at h
      rw [← h.2]
      exact List.nil_sublist _
    | some hdl =>
      by_cases hfin : (c.name == "finish") = true
      · simp only [hpc, hfin, if_true] at h
        exact (ih ctx true e ex h).cons c
      · have hfin' : (c.name == "finish") = false := by
          cases hb : (c.name == "finish") with
          | true => exact absurd hb hfin
          | false => rfl
        rcases hout : hdl (ctx.getD buildCtx) c.args with ⟨st1, out⟩
        cases out with
        | resolve p =>
          simp only [hpc, hfin', Bool.false_eq_true, if_false, hout] at h
          cases hrec : spaceTurn pool buildCtx (some st1) jf rest with
          | done ctx2 jf2 ex2 =>
            rw [hrec] at h
            exact SpaceTurnResult.noConfusion h
          | fail e2 ex2 =>
            rw [hrec] at h
            simp only [SpaceTurnResult.fail.injEq] at h
            rw [← h.2]
            exact (ih (some st1) jf e2 ex2 hrec).cons₂ c
        | reject e2 =>
          simp only [hpc, hfin', Bool.false_eq_true, if_false, hout,
            SpaceTurnResult.fail.injEq] at h
          rw [← h.2]
          simp
        | raised e2 =>
          simp only [hpc, hfin', Bool.false_eq_true, if_false, hout,
            SpaceTurnResult.fail.injEq] at h
          rw [← h.2]
          simp

/-- C2: in both tool loops (`sop_agent_curd`, `space_agent_search`), an
unregistered tool name or a handler rejection/exception ends the run at once
as a domain rejection.  Conjuncts: a turn that finishes its dispatch had
every named tool registered (so a bad call can never survive its turn); a
failed turn executed only calls up to the failure (a prefix of the turn for
the SOP loop, a sublist — skipping only `finish` sentinels — for the search
loop); and at any reached iteration a failed dispatch makes the whole run
return that rejection with no further completion-collaborator call. -/
theorem dispatch_error_aborts_run {σ : Type} (pool : ToolMap σ)
    (completes : Nat → Result LLMResponse) (init buildCtx : σ)
    (locCount : σ → Nat) (limit : Nat) :
    (∀ (calls : List ToolCall) (st : σ) (sub : Bool) (st' : σ) (sub' : Bool)
        (ex : List ToolCall), sopTurn pool st sub calls = .done st' sub' ex →
        ex = calls ∧ ∀ c ∈ calls, (pool c.name).isSome)
    ∧ (∀ (calls : List ToolCall) (ctx : Option σ) (jf : Bool) (ctx' : Option σ)
        (jf' : Bool) (ex : List ToolCall),
        spaceTurn pool buildCtx ctx jf calls = .done ctx' jf' ex →
        ∀ c ∈ calls, (pool c.name).isSome)
    ∧ (∀ (calls : List ToolCall) (st : σ) (sub : Bool) (e : String)
        (ex : List ToolCall), sopTurn pool st sub calls = .fail e ex → ex <+: calls)
    ∧ (∀ (calls : List ToolCall) (ctx : Option σ) (jf : Bool) (e : String)
        (ex : List ToolCall), spaceTurn pool buildCtx ctx jf calls = .fail e ex →
        ex.Sublist calls)
    ∧ (∀ (idx budget : Nat) (resp : LLMResponse) (e : String) (ex : List ToolCall),
        completes idx = .resolve resp → resp.tool_calls ≠ [] →
        sopTurn pool init false resp.tool_calls = .fail e ex →
        sopRunAux pool completes init idx (budget + 1)
          = ⟨.reject e, 1, ex.map (fun c => (idx, c))⟩)
    ∧ (∀ (idx budget : Nat) (ctx : Option σ) (resp : LLMResponse) (e : String)
        (ex : List ToolCall),
        completes idx = .resolve resp → resp.tool_calls ≠ [] →
        spaceTurn pool buildCtx ctx false resp.tool_calls = .fail e ex →
        spaceRunAux pool buildCtx locCount limit completes ctx idx (budget + 1)
          = ⟨.ret (.reject e), 1, ex.map (fun c => (idx, c))⟩) := by
  refine ⟨sopTurn_done_spec pool, spaceTurn_done_isSome pool buildCtx,
    sopTurn_fail_prefix pool, spaceTurn_fail_sublist pool buildCtx, ?_, ?_⟩
  · intro idx budget resp e ex hcomp hne hturn
    have hie : resp.tool_calls.isEmpty = false := by
      cases hval : resp.tool_calls with
      | nil => exact absurd hval hne
      | cons _ _ => rfl
    simp [sopRunAux, hcomp, hie, hturn]
  · intro idx budget ctx resp e ex hcomp hne hturn
    have hie : resp.tool_calls.isEmpty = false := by
      cases hval : resp.tool_calls with
      | nil => exact absurd hval hne
      | cons _ _ => rfl
    simp [spaceRunAux, hcomp, hie, hturn]

/-- A one-tool demo pool over state `Nat` (tool `good` resolves and bumps
the state), used to instantiate the loop theorems. -/
def demoPool : ToolMap Nat := fun name =>
  if name = "good" then some (fun st a => (st + 1, .resolve ("ran " ++ a))) else none

/-- A completion script whose every response calls the unregistered
tool `bad`. -/
def demoBadCompletes : Nat → Result LLMResponse := fun _ =>
  .resolve { content := "", tool_calls := [{ id := "call_1", name := "bad", args := "a" }] }

/-- Witness for `dispatch_error_aborts_run`: with a first response calling
the unregistered tool `bad`, both runs reject at once after a single
completion call and execute nothing. -/
theorem dispatch_error_aborts_run_witness :
    sopRunAux demoPool demoBadCompletes 0 0 3
      = ⟨.reject "Tool bad not found", 1, []⟩
    ∧ spaceRunAux demoPool 0 (fun _ => 0) 10 demoBadCompletes none 0 3
      = ⟨.ret (.reject "Tool bad not found"), 1, []⟩ := by
  constructor
  · exact (dispatch_error_aborts_run demoPool demoBadCompletes 0 0 (fun _ => 0) 10).2.2.2.2.1
      0 2 { content := "", tool_calls := [{ id := "call_1", name := "bad", args := "a" }] }
      "Tool bad not found" [] rfl (by decide) (by decide)
  · exact (dispatch_error_aborts_run demoPool demoBadCompletes 0 0 (fun _ => 0) 10).2.2.2.2.2
      0 2 none { content := "", tool_calls := [{ id := "call_1", name := "bad", args := "a" }] }
      "Tool bad not found" [] rfl (by decide) (by decide)

lemma sopTurn_clean {σ : Type} (pool : ToolMap σ)
    (hresolve : ∀ name hdl, pool name = some hdl →
      ∀ st a, ((hdl st a).2).isResolve = true) :
    ∀ (calls : List ToolCall) (st : σ) (sub : Bool),
      (∀ c ∈ calls, c.name ≠ "submit_sop" ∧ (pool c.name).isSome) →
      ∃ st' ex, sopTurn pool st sub calls = .done st' sub ex := by
  intro calls
  induction calls with
  | nil => intro st sub _; exact ⟨st, [], rfl⟩
  | cons c rest ih =>
    intro st sub hcalls
    obtain ⟨hname, hsome⟩ := hcalls c (List.mem_cons_self c rest)
    obtain ⟨hdl, hpc⟩ := Option.isSome_iff_exists.mp hsome
    have hres := hresolve c.name hdl hpc st c.args
    rcases hout : hdl st c.args with ⟨st1, out⟩
    rw [hout] at hres
    cases out with
    | resolve p =>
      have hsub : (c.name == "submit_sop") = false := beq_eq_false_iff_ne.mpr hname
      obtain ⟨st2, ex2, hrec⟩ := ih st1 sub fun d hd' => hcalls d (List.mem_cons_of_mem c hd')
      refine ⟨st2, c :: ex2, ?_⟩
      simp only [sopTurn, hpc, hout, hsub, Bool.or_false, hrec]
    | reject e => simp [HandlerOutcome.isResolve] at hres
    | raised e => simp [HandlerOutcome.isResolve] at hres

lemma sopRunAux_clean {σ : Type} (pool : ToolMap σ)
    (completes : Nat → Result LLMResponse) (init : σ)
    (hresolve : ∀ name hdl, pool name = some hdl →
      ∀ st a, ((hdl st a).2).isResolve = true)
    (hscript : ∀ i, ∃ resp, completes i = .resolve resp ∧ resp.tool_calls ≠ [] ∧
      ∀ c ∈ resp.tool_calls, c.name ≠ "submit_sop" ∧ (pool c.name).isSome) :
    ∀ (budget idx : Nat),
      (sopRunAux pool completes init idx budget).result = .resolve ()
      ∧ (sopRunAux pool completes init idx budget).completions = budget := by
  intro budget
  induction budget with
  | zero => intro idx; exact ⟨rfl, rfl⟩
  | succ b ih =>
    intro idx
    obtain ⟨resp, hcomp, hne, hcalls⟩ := hscript idx
    obtain ⟨st', ex, hturn⟩ := sopTurn_clean pool hresolve resp.tool_calls init false hcalls
    have hie : resp.tool_calls.isEmpty = false := by
      cases hval : resp.tool_calls with
      | nil => exact absurd hval hne
      | cons _ _ => rfl
    simp only [sopRunAux, hcomp, hie, Bool.false_eq_true, if_false, hturn]
    exact ⟨(ih (idx + 1)).1, by simp [(ih (idx + 1)).2]⟩

lemma spaceTurn_clean {σ : Type} (pool : ToolMap σ) (buildCtx : σ)
    (hresolve : ∀ name hdl, pool name = some hdl →
      ∀ st a, ((hdl st a).2).isResolve = true) :
    ∀ (calls : List ToolCall) (ctx : Option σ) (jf : Bool),
      (∀ c ∈ calls, c.name ≠ "finish" ∧ (pool c.name).isSome) →
      (calls ≠ [] ∨ ctx.isSome) →
      ∃ st' ex, spaceTurn pool buildCtx ctx jf calls = .done (some st') jf ex := by
  intro calls
  induction calls with
  | nil =>
    intro ctx jf _ hor
    rcases hor with hne | hsome
    · exact absurd rfl hne
    · obtain ⟨st, rfl⟩ := Option.isSome_iff_exists.mp hsome
      exact ⟨st, [], rfl⟩
  | cons c rest ih =>
    intro ctx jf hcalls _
    obtain ⟨hname, hsome⟩ := hcalls c (List.mem_cons_self c rest)
    obtain ⟨hdl, hpc⟩ := Option.isSome_iff_exists.mp hsome
    have hfin : (c.name == "finish") = false := beq_eq_false_iff_ne.mpr hname
    have hres := hresolve c.name hdl hpc (ctx.getD buildCtx) c.args
    rcases hout : hdl (ctx.getD buildCtx) c.args with ⟨st1, out⟩
    rw [hout] at hres
    cases out with
    | resolve p =>
      obtain ⟨st2, ex2, hrec⟩ := ih (some st1) jf
        (fun d hd' => hcalls d (List.mem_cons_of_mem c hd')) (Or.inr rfl)
      refine ⟨st2, c :: ex2, ?_⟩
      simp only [spaceTurn, hpc, hfin, Bool.false_eq_true, if_false, hout, hrec]
    | reject e => simp [HandlerOutcome.isResolve] at hres
    | raised e => simp [HandlerOutcome.isResolve] at hres

lemma spaceRunAux_clean {σ : Type} (pool : ToolMap σ) (buildCtx : σ)
    (locCount : σ → Nat) (limit : Nat) (completes : Nat → Result LLMResponse)
    (hresolve : ∀ name hdl, pool name = some hdl →
      ∀ st a, ((hdl st a).2).isResolve = true)
    (hscript : ∀ i, ∃ resp, completes i = .resolve resp ∧ resp.tool_calls ≠ [] ∧
      ∀ c ∈ resp.tool_calls, c.name ≠ "finish" ∧ (pool c.name).isSome)
    (hstop : ∀ st, locCount st < limit) :
    ∀ (budget idx : Nat) (st0 : σ),
      (∃ st', (spaceRunAux pool buildCtx locCount limit completes
          (some st0) idx budget).result = .ret (.resolve st'))
      ∧ (spaceRunAux pool buildCtx locCount limit completes
          (some st0) idx budget).completions = budget := by
  intro budget
  induction budget with
  | zero => intro idx st0; exact ⟨⟨st0, rfl⟩, rfl⟩
  | succ b ih =>
    intro idx st0
    obtain ⟨resp, hcomp, hne, hcalls⟩ := hscript idx
    obtain ⟨st1, ex, hturn⟩ := spaceTurn_clean pool buildCtx hresolve
      resp.tool_calls (some st0) false hcalls (Or.inr rfl)
    have hie : resp.tool_calls.isEmpty = false := by
      cases hval : resp.tool_calls with
      | nil => exact absurd hval hne
      | cons _ _ => rfl
    have hlim : ¬ limit ≤ locCount st1 := Nat.not_le.mpr (hstop st1)
    simp only [spaceRunAux, hcomp, hie, Bool.false_eq_true, if_false, hturn, hlim]
    exact ⟨(ih (idx + 1) st1).1, by simp [(ih (idx + 1) st1).2]⟩

lemma spaceRunAux_clean_step {σ : Type} (pool : ToolMap σ) (buildCtx : σ)
    (locCount : σ → Nat) (limit : Nat) (completes : Nat → Result LLMResponse)
    (ctx : Option σ) (idx b : Nat) (resp : LLMResponse) (st1 : σ) (ex : List ToolCall)
    (hcomp : completes idx = .resolve resp) (hne : resp.tool_calls ≠ [])
    (hturn : spaceTurn pool buildCtx ctx false resp.tool_calls = .done (some st1) false ex)
    (hlim : ¬ limit ≤ locCount st1) :
    spaceRunAux pool buildCtx locCount limit completes ctx idx (b + 1)
      = ⟨(spaceRunAux pool buildCtx locCount limit completes (some st1) (idx + 1) b).result,
         (spaceRunAux pool buildCtx locCount limit completes (some st1) (idx + 1) b).completions + 1,
         ex.map (fun c => (idx, c))
           ++ (spaceRunAux pool buildCtx locCount limit completes (some st1) (idx + 1) b).executed⟩ := by
  have hie : resp.tool_calls.isEmpty = false := by
    cases hval : resp.tool_calls with
    | nil => exact absurd hval hne
    | cons _ _ => rfl
  simp only [spaceRunAux, hcomp, hie, Bool.false_eq_true, if_false, hturn, hlim]

/-- C3: a run of either loop with `max_iterations = 3` whose every model
response carries tool calls, never the `submit_sop`/`finish` sentinel, whose
every named tool is registered with a handler that always resolves, and for
which the located-blocks stop condition never holds, makes exactly 3
completion-collaborator calls and then stops, returning a resolved (normal,
non-error) result. -/
theorem max_iterations_bounds_run {σ : Type} (pool : ToolMap σ)
    (completes : Nat → Result LLMResponse) (init buildCtx : σ)
    (locCount : σ → Nat) (limit : Nat)
    (hresolve : ∀ name hdl, pool name = some hdl →
      ∀ st a, ((hdl st a).2).isResolve = true)
    (hscript : ∀ i, ∃ resp, completes i = .resolve resp ∧ resp.tool_calls ≠ [] ∧
      ∀ c ∈ resp.tool_calls, c.name ≠ "submit_sop" ∧ c.name ≠ "finish" ∧
        (pool c.name).isSome)
    (hstop : ∀ st, locCount st < limit) :
    (sop_agent_curd pool completes init 3).result = .resolve ()
    ∧ (sop_agent_curd pool completes init 3).completions = 3
    ∧ (∃ st', (space_agent_search pool buildCtx locCount limit completes 3).result
        = .ret (.resolve st'))
    ∧ (space_agent_search pool buildCtx locCount limit completes 3).completions = 3 := by
  have hsop := sopRunAux_clean pool completes init hresolve
    (fun i => by
      obtain ⟨resp, h1, h2, h3⟩ := hscript i
      exact ⟨resp, h1, h2, fun c hc => ⟨(h3 c hc).1, (h3 c hc).2.2⟩⟩) 3 0
  refine ⟨hsop.1, hsop.2, ?_⟩
  obtain ⟨resp, hcomp, hne, hcalls⟩ := hscript 0
  obtain ⟨st1, ex, hturn⟩ := spaceTurn_clean pool buildCtx hresolve
    resp.tool_calls none false
    (fun c hc => ⟨(hcalls c hc).2.1, (hcalls c hc).2.2⟩) (Or.inl hne)
  have hie : resp.tool_calls.isEmpty = false := by
    cases hval : resp.tool_calls with
    | nil => exact absurd hval hne
    | cons _ _ => rfl
  have hlim : ¬ limit ≤ locCount st1 := Nat.not_le.mpr (hstop st1)
  have hrest := spaceRunAux_clean pool buildCtx locCount limit completes hresolve
    (fun i => by
      obtain ⟨r, h1, h2, h3⟩ := hscript i
      exact ⟨r, h1, h2, fun c hc => ⟨(h3 c hc).2.1, (h3 c hc).2.2⟩⟩) hstop 2 1 st1
  unfold space_agent_search
  have h3 : (3 : Nat) = 2 + 1 := rfl
  have hstep := spaceRunAux_clean_step pool buildCtx locCount limit completes
    none 0 2 resp st1 ex hcomp hne hturn hlim
  rw [h3, hstep]
  simp only [Nat.zero_add]
  exact ⟨hrest.1, by simp [hrest.2]⟩

/-- A completion script whose every response carries one call of the
registered, always-resolving tool `good`. -/
def demoGoodCompletes : Nat → Result LLMResponse := fun _ =>
  .resolve { content := "", tool_calls := [{ id := "call_1", name := "good", args := "a" }] }

lemma demoPool_resolves : ∀ name hdl, demoPool name = some hdl →
    ∀ st a, ((hdl st a).2).isResolve = true := by
  intro name hdl hp st a
  unfold demoPool at hp
  split at hp
  · cases hp; rfl
  · exact Option.noConfusion hp

/-- Witness for `max_iterations_bounds_run`: a concrete always-tool-calling
script makes both 3-iteration runs stop after exactly 3 completion calls. -/
theorem max_iterations_bounds_run_witness :
    (sop_agent_curd demoPool demoGoodCompletes 0 3).result = .resolve ()
    ∧ (sop_agent_curd demoPool demoGoodCompletes 0 3).completions = 3
    ∧ (∃ st', (space_agent_search demoPool 0 (fun _ => 0) 10 demoGoodCompletes 3).result
        = .ret (.resolve st'))
    ∧ (space_agent_search demoPool 0 (fun _ => 0) 10 demoGoodCompletes 3).completions = 3 :=
  max_iterations_bounds_run demoPool demoGoodCompletes 0 0 (fun _ => 0) 10
    demoPool_resolves
    (fun _ => ⟨{ content := "", tool_calls := [{ id := "call_1", name := "good", args := "a" }] },
      rfl, by decide, by decide⟩)
    (fun _ => by norm_num)

/-- C7 (divergence theorem): when the first completion response carries no
tool calls, `sop_agent_curd` does stop successfully after exactly 1
completion call, but `space_agent_search` — whose `USE_CTX` is still `None`
— raises `AttributeError` at `USE_CTX.db_session = None` instead of
returning a success `Result` with the run context. -/
theorem first_response_no_tool_calls {σ : Type} (pool : ToolMap σ)
    (completes : Nat → Result LLMResponse) (init buildCtx : σ)
    (locCount : σ → Nat) (limit M : Nat) (resp : LLMResponse)
    (hM : 1 ≤ M) (h0 : completes 0 = .resolve resp) (hempty : resp.tool_calls = []) :
    sop_agent_curd pool completes init M = ⟨.resolve (), 1, []⟩
    ∧ space_agent_search pool buildCtx locCount limit completes M
        = ⟨.exn "AttributeError: NoneType object has no attribute db_session", 1, []⟩ := by
  obtain ⟨b, rfl⟩ : ∃ b, M = b + 1 := ⟨M - 1, by omega⟩
  have hie : resp.tool_calls.isEmpty = true := by simp [hempty]
  constructor
  · unfold sop_agent_curd
    simp [sopRunAux, h0, hie]
  · unfold space_agent_search
    simp [spaceRunAux, h0, hie, spaceFinish]

/-- A completion script whose first response carries no tool calls. -/
def demoEmptyCompletes : Nat → Result LLMResponse := fun _ =>
  .resolve { content := "the final answer", tool_calls := [] }

/-- Witness for `first_response_no_tool_calls` at a concrete script: the SOP
run resolves after 1 completion, the search run raises. -/
theorem first_response_no_tool_calls_witness :
    sop_agent_curd demoPool demoEmptyCompletes 0 3 = ⟨.resolve (), 1, []⟩
    ∧ space_agent_search demoPool 0 (fun _ => 0) 10 demoEmptyCompletes 3
        = ⟨.exn "AttributeError: NoneType object has no attribute db_session", 1, []⟩ :=
  first_response_no_tool_calls demoPool demoEmptyCompletes 0 0 (fun _ => 0) 10 3
    { content := "the final answer", tool_calls := [] } (by decide) rfl rfl

/-! ## OrderedTaskStore: `update_task`

Task data documents are embedded as association lists from keys to values of
an abstract type `V`; `List.lookup` is dictionary access (first binding
wins).  A Python dict update `{**d, **p}` becomes a fold of single-key
updates. -/

/-- Dictionary access `d[k]` / `d.get(k)`: the first binding for `k`. -/
def lookupKey {V : Type} : List (String × V) → String → Option V
  | [], _ => none
  | q :: rest, k => if q.1 = k then some q.2 else lookupKey rest k

/-- Dictionary single-key assignment `d[k] = v`: overwrite an existing
binding in place, otherwise append the new binding. -/
def setKey {V : Type} (d : List (String × V)) (k : String) (v : V) :
    List (String × V) :=
  if k ∈ d.map Prod.fst then d.map (fun q => if q.1 = k then (k, v) else q)
  else d ++ [(k, v)]

/-- The shallow merge `{**d, **p}`: every binding of `p` assigned into `d`
in order. -/
def shallowMerge {V : Type} (d p : List (String × V)) : List (String × V) :=
  p.foldl (fun acc q => setKey acc q.1 q.2) d

lemma lookup_map_setKey {V : Type} (k k' : String) (v : V) :
    ∀ d : List (String × V),
      lookupKey (d.map (fun q => if q.1 = k then (k, v) else q)) k'
        = if k' = k then (if k ∈ d.map Prod.fst then some v else none)
          else lookupKey d k' := by
  intro d
  induction d with
  | nil => by_cases h : k' = k <;> simp [h, lookupKey]
  | cons q rest ih =>
    rcases q with ⟨a, w⟩
    by_cases hak : a = k
    · subst hak
      by_cases hk : k' = a
      · subst hk
        simp [lookupKey, ih]
      · simp [lookupKey, ih, hk, Ne.symm hk]
    · by_cases hk : k' = k
      · subst hk
        have hka : ¬ a = k' := hak
        simp only [List.map_cons, lookupKey, hka, if_false, ih, if_pos rfl, List.mem_cons]
        by_cases hmem : k' ∈ List.map Prod.fst rest <;> simp [hmem, Ne.symm hak]
      · by_cases hk'a : k' = a
        · subst hk'a
          simp [lookupKey, ih, hak, hk, Ne.symm hak]
        · simp [lookupKey, ih, hak, hk, hk'a, Ne.symm hk'a]

lemma lookup_append_single {V : Type} (k k' : String) (v : V) :
    ∀ d : List (String × V),
      lookupKey (d ++ [(k, v)]) k'
        = match lookupKey d k' with
          | some w => some w
          | none => if k' = k then some v else none := by
  intro d
  induction d with
  | nil =>
    by_cases hk : k' = k
    · simp [lookupKey, hk]
    · simp [lookupKey, hk, Ne.symm hk]
  | cons q rest ih =>
    rcases q with ⟨a, w2⟩
    by_cases hak : a = k' <;> simp [lookupKey, hak, ih]

lemma lookup_none_of_not_mem {V : Type} (k : String) :
    ∀ d : List (String × V), k ∉ d.map Prod.fst → lookupKey d k = none := by
  intro d
  induction d with
  | nil => intro _; rfl
  | cons q rest ih =>
    intro h
    rcases q with ⟨a, w⟩
    simp only [List.map_cons, List.mem_cons] at h
    push_neg at h
    have hak : ¬ a = k := fun hc => h.1 hc.symm
    simp [lookupKey, hak, ih h.2]

lemma lookup_setKey {V : Type} (d : List (String × V)) (k k' : String) (v : V) :
    lookupKey (setKey d k v) k' = if k' = k then some v else lookupKey d k' := by
  unfold setKey
  by_cases hmem : k ∈ d.map Prod.fst
  · rw [if_pos hmem, lookup_map_setKey]
    by_cases hk : k' = k
    · simp [hk, hmem]
    · simp [hk, hmem]
  · rw [if_neg hmem, lookup_append_single]
    by_cases hk : k' = k
    · subst hk
      rw [lookup_none_of_not_mem k' d hmem]
    · have hnone : (match lookupKey d k' with
          | some w => some w
          | none => if k' = k then some v else none) = lookupKey d k' := by
        cases hlk : lookupKey d k'
        · simp [hk, hlk]
        · simp [hlk]
      rw [hnone, if_neg hk]

/-- `a` if present, else `b`: the key-level effect of a dict merge. -/
def orElseKey {V : Type} (a b : Option V) : Option V :=
  match a with
  | some v => some v
  | none => b

lemma lookup_shallowMerge {V : Type} :
    ∀ (p : List (String × V)), (p.map Prod.fst).Nodup →
    ∀ (d : List (String × V)) (k : String),
      lookupKey (shallowMerge d p) k
        = orElseKey (lookupKey p k) (lookupKey d k) := by
  intro p
  induction p with
  | nil => intro _ d k; simp [shallowMerge, lookupKey, orElseKey]
  | cons q rest ih =>
    intro hp d k
    rcases q with ⟨a, w⟩
    simp only [List.map_cons, List.nodup_cons] at hp
    have hsm : shallowMerge d ((a, w) :: rest) = shallowMerge (setKey d a w) rest := rfl
    rw [hsm, ih hp.2]
    by_cases hka : k = a
    · subst hka
      rw [lookup_none_of_not_mem k rest hp.1, lookup_setKey]
      simp [lookupKey, orElseKey]
    · have hak : ¬ a = k := fun hc => hka hc.symm
      cases hlk : lookupKey rest k <;>
        simp [lookupKey, orElseKey, hak, hlk, lookup_setKey, hka]

/-- A task record as `update_task` sees it: id, status, order and the
`task_data` document (values drawn from an abstract type `V`). -/
structure TaskRec (V : Type) where
  id : Nat
  task_status : String
  task_order : Int
  task_data : List (String × V)
deriving Repr, DecidableEq

/-- The field updates `update_task` applies to the fetched task: only
non-`None` parameters are applied; `data` replaces the document wholesale
and takes precedence over `patch_data`; `patch_data` shallow-merges its keys
into the existing document. -/
def applyTaskUpdate {V : Type} (status : Option String) (order : Option Int)
    (data patch_data : Option (List (String × V))) (t : TaskRec V) : TaskRec V :=
  let t1 := match status with
    | some s => { t with task_status := s }
    | none => t
  let t2 := match order with
    | some o => { t1 with task_order := o }
    | none => t1
  match data with
  | some d => { t2 with task_data := d }
  | none =>
    match patch_data with
    | some p => { t2 with task_data := shallowMerge t2.task_data p }
    | none => t2

/-- Modelled from the spec: `update_task` with the `patch_data` parameter.
The copy of `service/data/task.py` under `src/` lacks `patch_data` (only the
tests in `tests/service/test_task_data.py` exercise it); following the
spec's words, `patch_data` shallow-merges the named keys into the existing
data document, `data` replaces the whole document and takes precedence over
`patch_data` when both are supplied.  The remaining behaviour follows the
`update_task` that is present under `src/`: only supplied fields are
applied, and a missing task id yields the NotFound rejection with no state
change.  Returns the `Result` together with the store after the call. -/
def update_task {V : Type} (tasks : List (TaskRec V)) (task_id : Nat)
    (status : Option String) (order : Option Int)
    (data patch_data : Option (List (String × V))) :
    Result (TaskRec V) × List (TaskRec V) :=
  match tasks.find? (fun t => t.id == task_id) with
  | none => (.reject ("Task " ++ toString task_id ++ " not found"), tasks)
  | some t =>
    let t' := applyTaskUpdate status order data patch_data t
    (.resolve t', tasks.map (fun u => if u.id = task_id then t' else u))

/-- C4: `update_task` applies only the supplied fields — a `patch_data`-only
call keeps status and order, gives every key named in the patch its patch
value and preserves every other key of the document; a `data` call replaces
the document wholesale; supplying both applies `data` and ignores
`patch_data`; and a missing task id returns the NotFound rejection and
leaves the store unchanged. -/
theorem update_task_applies_supplied_fields {V : Type} (tasks : List (TaskRec V))
    (task_id : Nat) (t : TaskRec V) (p d0 : List (String × V)) (missing_id : Nat)
    (hfind : tasks.find? (fun u => u.id == task_id) = some t)
    (hp : (p.map Prod.fst).Nodup)
    (hmissing : tasks.find? (fun u => u.id == missing_id) = none) :
    (∃ t', (update_task tasks task_id none none none (some p)).1 = .resolve t'
      ∧ t'.task_status = t.task_status ∧ t'.task_order = t.task_order
      ∧ ∀ k, lookupKey t'.task_data k
          = orElseKey (lookupKey p k) (lookupKey t.task_data k))
    ∧ (∃ t', (update_task tasks task_id none none (some d0) none).1 = .resolve t'
      ∧ t'.task_data = d0)
    ∧ (∃ t', (update_task tasks task_id none none (some d0) (some p)).1 = .resolve t'
      ∧ t'.task_data = d0)
    ∧ (∀ (status : Option String) (order : Option Int)
        (data patch_data : Option (List (String × V))),
        (update_task tasks missing_id status order data patch_data).1.isReject = true
        ∧ (update_task tasks missing_id status order data patch_data).2 = tasks) := by
  refine ⟨?_, ?_, ?_, ?_⟩
  · refine ⟨applyTaskUpdate none none none (some p) t, ?_, rfl, rfl, ?_⟩
    · unfold update_task
      rw [hfind]
    · intro k
      show lookupKey (shallowMerge t.task_data p) k = _
      rw [lookup_shallowMerge p hp t.task_data k]
  · refine ⟨applyTaskUpdate none none (some d0) none t, ?_, rfl⟩
    unfold update_task
    rw [hfind]
  · refine ⟨applyTaskUpdate none none (some d0) (some p) t, ?_, rfl⟩
    unfold update_task
    rw [hfind]
  · intro status order data patch_data
    constructor <;> simp [update_task, hmissing, Result.isReject]

/-- A concrete task record used to witness `update_task` claims. -/
def demoTask1 : TaskRec Nat :=
  { id := 1, task_status := "pending", task_order := 1, task_data := [("x", 0), ("y", 7)] }

/-- A second concrete task record. -/
def demoTask2 : TaskRec Nat :=
  { id := 2, task_status := "running", task_order := 2, task_data := [("z", 3)] }

/-- A concrete two-task store used to witness `update_task` claims. -/
def demoTasks : List (TaskRec Nat) := [demoTask1, demoTask2]

/-- Witness for `update_task_applies_supplied_fields` on `demoTasks`:
a patch of key `x` updates `x`, preserves `y`, and a missing id (9) rejects
without changing the store. -/
theorem update_task_applies_supplied_fields_witness :
    (∃ t', (update_task demoTasks 1 none none none (some [("x", 5)])).1 = .resolve t'
      ∧ t'.task_status = demoTask1.task_status ∧ t'.task_order = demoTask1.task_order
      ∧ ∀ k, lookupKey t'.task_data k
          = orElseKey (lookupKey [("x", 5)] k) (lookupKey demoTask1.task_data k))
    ∧ (update_task demoTasks 9 (some "running") none none none).1.isReject = true
    ∧ (update_task demoTasks 9 (some "running") none none none).2 = demoTasks := by
  have h := update_task_applies_supplied_fields demoTasks 1 demoTask1
    [("x", 5)] [("w", 2)] 9 (by decide) (by decide) (by decide)
  exact ⟨h.1, (h.2.2.2 (some "running") none none none).1,
    (h.2.2.2 (some "running") none none none).2⟩

/-! ## `append_messages_to_task` tool handler (llm/tool/task_lib/append.py)

The handler's context carries the parallel index arrays built for the model
(1-based task ordinals to `(task id, task status)` pairs, message ordinals
to message ids).  The two data-layer calls (`TD.append_messages_to_task`,
`TD.append_progress_to_task`) are abstracted as `Result` parameters; the
second component of the handler's return value records the message ids
actually handed to the data layer — empty exactly when no link was added. -/

/-- Task status enumeration (`schema/session/task.py`). -/
inductive TaskStatus where
  | pending
  | running
  | success
  | failed
deriving Repr, DecidableEq

/-- The handler context: `task_ids_index`/`task_index` fused into one
aligned list of `(task id, status)`, plus `message_ids_index`. -/
structure TaskCtx where
  tasks : List (Nat × TaskStatus)
  message_ids_index : List Nat
deriving Repr, DecidableEq

/-- The `llm_arguments` of the append tool: `task_order` (absent or an
integer; `0` is falsy like absence), `message_ids` ordinals, optional
`progress` note and the `user_preference` string. -/
structure AppendArgs where
  task_order : Option Int
  message_ids : List Nat
  progress : Option String
  user_preference : String
deriving Repr, DecidableEq

/-- `_append_messages_to_task_handler`: guards run in source order — falsy
`task_order`, range check, *empty resolved message list*, then the terminal
status check; each guard returns a **resolved** `Result` carrying an
explanatory message.  Only past every guard are the data-layer calls made
(their outcomes are the `tdMessages`/`tdProgress` parameters). -/
def append_messages_to_task_handler (ctx : TaskCtx) (args : AppendArgs)
    (tdMessages tdProgress : Result Unit) : Result String × List Nat :=
  match args.task_order with
  | none =>
    (.resolve "You must provide a task order argument, so that we can attach messages to the task. Appending failed.", [])
  | some o =>
    if o = 0 then
      (.resolve "You must provide a task order argument, so that we can attach messages to the task. Appending failed.", [])
    else if o > ctx.tasks.length ∨ o < 1 then
      (.resolve "Task order is out of range, appending failed.", [])
    else
      match ctx.tasks.get? (o - 1).toNat with
      | none => (.reject "IndexError", [])
      | some task =>
        let actually_message_ids := args.message_ids.filterMap
          (fun i => ctx.message_ids_index.get? i)
        if actually_message_ids.isEmpty then
          (.resolve "No message ids to append, skip", [])
        else if task.2 = .success ∨ task.2 = .failed then
          (.resolve "Appending failed. Task is already terminal. Update its status to running first then append messages.", [])
        else
          match tdMessages with
          | .reject e => (.reject e, actually_message_ids)
          | .resolve _ =>
            match args.progress with
            | none => (.resolve "Messages and progress are appended", actually_message_ids)
            | some _ =>
              match tdProgress with
              | .reject e => (.reject e, actually_message_ids)
              | .resolve _ => (.resolve "Messages and progress are appended", actually_message_ids)

/-- C5 counterexample: a concrete success-status task with a valid non-empty
message list.  The handler refuses the append and links nothing, but the
`Result` it returns is **resolved** (`ok() = true`), not a rejection —
refuting the claim's "returns a rejection result". -/
theorem append_terminal_not_rejected_counterexample :
    ((append_messages_to_task_handler
        { tasks := [(7, .success)], message_ids_index := [100] }
        { task_order := some 1, message_ids := [0], progress := none,
          user_preference := "" }
        (.resolve ()) (.resolve ())).1).ok = true
    ∧ (append_messages_to_task_handler
        { tasks := [(7, .success)], message_ids_index := [100] }
        { task_order := some 1, message_ids := [0], progress := none,
          user_preference := "" }
        (.resolve ()) (.resolve ())).2 = [] := by decide

/-- C5 as amended: for a task whose status is success or failed the handler
refuses the append — it adds no message link and returns a *resolved*
`Result` carrying a refusal message (a success-status value, so the
surrounding tool loop is not aborted) — and for a non-terminal task an
append whose message list is empty is a no-op that returns success. -/
theorem append_terminal_refused (ctx : TaskCtx) (args : AppendArgs)
    (tdMessages tdProgress : Result Unit) (o : Int) (task : Nat × TaskStatus)
    (hord : args.task_order = some o) (ho : o ≠ 0)
    (hrange : ¬ (o > ctx.tasks.length ∨ o < 1))
    (hget : ctx.tasks.get? (o - 1).toNat = some task) :
    ((task.2 = .success ∨ task.2 = .failed) →
      ∃ msg, append_messages_to_task_handler ctx args tdMessages tdProgress
        = (.resolve msg, []))
    ∧ (args.message_ids = [] →
      append_messages_to_task_handler ctx args tdMessages tdProgress
        = (.resolve "No message ids to append, skip", [])) := by
  constructor
  · intro hterm
    unfold append_messages_to_task_handler
    rw [hord]
    simp only [if_neg ho, if_neg hrange, hget]
    by_cases hemp : (args.message_ids.filterMap
        (fun i => ctx.message_ids_index.get? i)).isEmpty
    · exact ⟨"No message ids to append, skip", by rw [if_pos hemp]⟩
    · refine ⟨"Appending failed. Task is already terminal. Update its status to running first then append messages.", ?_⟩
      rw [if_neg hemp, if_pos hterm]
  · intro hnil
    unfold append_messages_to_task_handler
    rw [hord]
    simp only [if_neg ho, if_neg hrange, hget, hnil, List.filterMap_nil]
    exact if_pos rfl

/-- Witness for `append_terminal_refused` at the same concrete terminal-task
input as the counterexample. -/
theorem append_terminal_refused_witness :
    ∃ msg, append_messages_to_task_handler
        { tasks := [(7, .success)], message_ids_index := [100] }
        { task_order := some 1, message_ids := [0], progress := none,
          user_preference := "" }
        (.resolve ()) (.resolve ())
      = (.resolve msg, []) :=
  (append_terminal_refused
    { tasks := [(7, .success)], message_ids_index := [100] }
    { task_order := some 1, message_ids := [0], progress := none,
      user_preference := "" }
    (.resolve ()) (.resolve ()) 1 (7, .success)
    rfl (by decide) (by decide) (by decide)).1 (Or.inl rfl)

/-! ## `submit_sop` handler (llm/tool/sop_lib/submit.py)

The pydantic `SOPData.model_validate` outcome is a parameter (`Except`);
the handler's second return component is the list of messages published to
the message bus during the call. -/

/-- One procedure step of a submitted SOP (`schema/block/sop_block.py`). -/
structure SOPStep where
  tool_name : String
  action : String
deriving Repr, DecidableEq

/-- A submitted SOP (`schema/block/sop_block.py`). -/
structure SOPData where
  use_when : String
  preferences : String
  tool_sops : List SOPStep
deriving Repr, DecidableEq

/-- The per-run SOP context (`llm/tool/sop_lib/ctx.py`). -/
structure SOPCtx where
  project_id : Nat
  space_id : Nat
  task_id : Nat
deriving Repr, DecidableEq

/-- The `SOPComplete` message-bus payload (`schema/mq/sop.py`): the ids plus
the full serialized procedure. -/
structure SOPComplete where
  project_id : Nat
  space_id : Nat
  task_id : Nat
  sop_data : SOPData
deriving Repr, DecidableEq

/-- Python `str.strip` on the embedded string: drop whitespace from both
ends of the character list. -/
def pyStrip (s : String) : String :=
  ⟨((s.data.dropWhile Char.isWhitespace).reverse.dropWhile Char.isWhitespace).reverse⟩

/-- `submit_sop_handler`: validation failure rejects; a submission with no
procedure steps and a blank (after strip) preferences string is dropped —
nothing is published and the handler still resolves; otherwise exactly one
`SOPComplete` event is published and the handler resolves. -/
def submit_sop_handler (ctx : SOPCtx) (parse : Except String SOPData) :
    Result String × List SOPComplete :=
  match parse with
  | .error e => (.reject ("Invalid SOP data: " ++ e), [])
  | .ok sop_data =>
    if sop_data.tool_sops.length = 0 ∧ (pyStrip sop_data.preferences).length = 0 then
      (.resolve "SOP submitted", [])
    else
      (.resolve "SOP submitted",
        [{ project_id := ctx.project_id, space_id := ctx.space_id,
           task_id := ctx.task_id, sop_data := sop_data }])

/-- C6: an empty-procedure, blank-preferences submission publishes nothing
and still resolves; any other valid submission publishes exactly one
`SOPComplete` event carrying the context ids and the submitted procedure;
and a run whose turn consists of such a resolving `submit_sop` call stops
and reports overall success. -/
theorem submit_sop_drop_rule (ctx : SOPCtx) (sop_data : SOPData) :
    (sop_data.tool_sops = [] → pyStrip sop_data.preferences = "" →
      submit_sop_handler ctx (.ok sop_data) = (.resolve "SOP submitted", []))
    ∧ (¬ (sop_data.tool_sops.length = 0 ∧ (pyStrip sop_data.preferences).length = 0) →
      submit_sop_handler ctx (.ok sop_data)
        = (.resolve "SOP submitted",
           [{ project_id := ctx.project_id, space_id := ctx.space_id,
              task_id := ctx.task_id, sop_data := sop_data }]))
    ∧ (∀ {σ : Type} (pool : ToolMap σ) (completes : Nat → Result LLMResponse)
        (init : σ) (budget idx : Nat) (resp : LLMResponse) (c : ToolCall)
        (hdl : σ → String → σ × HandlerOutcome) (st1 : σ) (p : String),
        completes idx = .resolve resp → resp.tool_calls = [c] →
        c.name = "submit_sop" → pool c.name = some hdl →
        hdl init c.args = (st1, .resolve p) →
        sopRunAux pool completes init idx (budget + 1)
          = ⟨.resolve (), 1, [(idx, c)]⟩) := by
  refine ⟨?_, ?_, ?_⟩
  · intro hsteps hpref
    simp only [submit_sop_handler]
    rw [if_pos ⟨by rw [hsteps]; rfl, by rw [hpref]; rfl⟩]
  · intro hne
    simp only [submit_sop_handler]
    rw [if_neg hne]
  · intro σ pool completes init budget idx resp c hdl st1 p
      hcomp hcalls hname hpool hhdl
    have hturn : sopTurn pool init false resp.tool_calls
        = .done st1 true [c] := by
      rw [hcalls]
      have hbeq : (c.name == "submit_sop") = true := beq_iff_eq.mpr hname
      simp only [sopTurn, hpool, hhdl, hbeq, Bool.false_or]
    have hie : resp.tool_calls.isEmpty = false := by
      rw [hcalls]; rfl
    simp only [sopRunAux, hcomp, hie, Bool.false_eq_true, if_false, hturn, if_true]
    rfl

/-- A pool over state `Nat` whose only tool is a resolving `submit_sop`. -/
def demoSubmitPool : ToolMap Nat := fun name =>
  if name = "submit_sop" then some (fun st _ => (st, .resolve "SOP submitted")) else none

/-- A completion script that always asks for one `submit_sop` call. -/
def demoSubmitCompletes : Nat → Result LLMResponse := fun _ =>
  .resolve { content := "",
             tool_calls := [{ id := "call_1", name := "submit_sop", args := "a" }] }

/-- Witness for `submit_sop_drop_rule`: a concrete empty submission is
dropped without a publish, a concrete non-empty one publishes exactly one
event, and a concrete run submitting it reports success in 1 iteration. -/
theorem submit_sop_drop_rule_witness :
    submit_sop_handler { project_id := 1, space_id := 2, task_id := 3 }
        (.ok { use_when := "u", preferences := "  ", tool_sops := [] })
      = (.resolve "SOP submitted", [])
    ∧ submit_sop_handler { project_id := 1, space_id := 2, task_id := 3 }
        (.ok { use_when := "u", preferences := "p",
               tool_sops := [{ tool_name := "t", action := "a" }] })
      = (.resolve "SOP submitted",
         [{ project_id := 1, space_id := 2, task_id := 3,
            sop_data := { use_when := "u", preferences := "p",
                          tool_sops := [{ tool_name := "t", action := "a" }] } }])
    ∧ sopRunAux demoSubmitPool demoSubmitCompletes 0 0 3
      = ⟨.resolve (), 1, [(0, { id := "call_1", name := "submit_sop", args := "a" })]⟩ := by
  refine ⟨?_, ?_, ?_⟩
  · exact (submit_sop_drop_rule { project_id := 1, space_id := 2, task_id := 3 }
      { use_when := "u", preferences := "  ", tool_sops := [] }).1 rfl (by decide)
  · exact (submit_sop_drop_rule { project_id := 1, space_id := 2, task_id := 3 }
      { use_when := "u", preferences := "p",
        tool_sops := [{ tool_name := "t", action := "a" }] }).2.1 (by decide)
  · exact (submit_sop_drop_rule { project_id := 1, space_id := 2, task_id := 3 }
      { use_when := "u", preferences := "", tool_sops := [] }).2.2
      demoSubmitPool demoSubmitCompletes 0 2 0
      { content := "", tool_calls := [{ id := "call_1", name := "submit_sop", args := "a" }] }
      { id := "call_1", name := "submit_sop", args := "a" }
      (fun st _ => (st, .resolve "SOP submitted")) 0 "SOP submitted"
      rfl rfl rfl rfl rfl

/-! ## SemanticIndex search -/

/-- Ranking relation: ascending by the distance component. -/
def distLE (a b : Nat × ℚ) : Prop := a.2 ≤ b.2

instance : DecidableRel distLE := fun a b => inferInstanceAs (Decidable (a.2 ≤ b.2))

instance : IsTotal (Nat × ℚ) distLE := ⟨fun a b => le_total a.2 b.2⟩

instance : IsTrans (Nat × ℚ) distLE := ⟨fun _ _ _ hab hbc => le_trans hab hbc⟩

/-- Modelled from the spec: `search_content_blocks`
(`service/data/block_search.py` is absent from `src/`; only its callers —
`api.semantic_grep_search_func` and the `search_content` tool — are
present).  Candidates are the index rows in insertion order, each paired
with its cosine distance to the query; per the spec the result keeps only
candidates within the distance threshold, ranks them ascending by distance
with a stable sort, and then truncates to `topk`. -/
def search_content_blocks (cands : List (Nat × ℚ)) (topk : Nat) (threshold : ℚ) :
    List (Nat × ℚ) :=
  (((cands.filter (fun c => decide (c.2 ≤ threshold))).insertionSort distLE).take topk)

/-- C8: the search result contains only candidates (with unchanged
distances) whose distance is within `threshold`, has at most `topk`
entries, is sorted ascending by distance, is a prefix of the full ranked
list (`maxDistance` filtering happens before the `topK` cut), and ties are
stable: the filtered candidates at any fixed distance appear in the full
ranked list in their insertion order. -/
theorem search_ranked_filtered_truncated (cands : List (Nat × ℚ)) (topk : Nat)
    (threshold : ℚ) :
    (∀ c ∈ search_content_blocks cands topk threshold, c ∈ cands ∧ c.2 ≤ threshold)
    ∧ (search_content_blocks cands topk threshold).length ≤ topk
    ∧ (search_content_blocks cands topk threshold).Sorted distLE
    ∧ (search_content_blocks cands topk threshold) <+:
        ((cands.filter (fun c => decide (c.2 ≤ threshold))).insertionSort distLE)
    ∧ ∀ d : ℚ,
        ((cands.filter (fun c => decide (c.2 ≤ threshold))).filter
            (fun c => decide (c.2 = d))).Sublist
          ((cands.filter (fun c => decide (c.2 ≤ threshold))).insertionSort distLE) := by
  refine ⟨?_, ?_, ?_, ?_, ?_⟩
  · intro c hc
    have hsorted : c ∈ (cands.filter
        (fun c => decide (c.2 ≤ threshold))).insertionSort distLE :=
      (List.take_sublist _ _).mem hc
    have hfil : c ∈ cands.filter (fun c => decide (c.2 ≤ threshold)) :=
      (List.mem_insertionSort distLE).mp hsorted
    have := List.mem_filter.mp hfil
    exact ⟨this.1, of_decide_eq_true this.2⟩
  · rw [search_content_blocks, List.length_take]
    exact min_le_left _ _
  · exact List.Pairwise.sublist (List.take_sublist _ _)
      (List.sorted_insertionSort distLE _)
  · exact List.take_prefix _ _
  · intro d
    refine List.sublist_insertionSort ?_ (List.filter_sublist _)
    refine List.pairwise_of_forall_mem_list ?_
    intro a ha b hb
    have hda := of_decide_eq_true (List.mem_filter.mp ha).2
    have hdb := of_decide_eq_true (List.mem_filter.mp hb).2
    show a.2 ≤ b.2
    rw [hda, hdb]

/-- Witness for `search_ranked_filtered_truncated` at a concrete candidate
list: four candidates, threshold 3, topk 2. -/
theorem search_ranked_filtered_truncated_witness :
    search_content_blocks [(1, 2), (2, 4), (3, 1), (4, 2)] 2 3 = [(3, 1), (1, 2)]
    ∧ (search_content_blocks [(1, 2), (2, 4), (3, 1), (4, 2)] 2 3).length ≤ 2 := by
  exact ⟨by decide,
    (search_ranked_filtered_truncated [(1, 2), (2, 4), (3, 1), (4, 2)] 2 3).2.1⟩

/-! ## BlockTree (schema/orm/block.py, service/data/block.py) -/

/-- One entry of the `BLOCK_TYPES` configuration table. -/
structure BlockTypeConfig where
  name : String
  allow_children : Bool
  require_parent : Bool
deriving Repr, DecidableEq

/-- The `BLOCK_TYPES` fixed table: `page`/`folder` allow children and do not
require a parent; `text`/`sop` allow children and require a parent. -/
def BLOCK_TYPES : List (String × BlockTypeConfig) :=
  [("page", { name := "page", allow_children := true, require_parent := false }),
   ("folder", { name := "folder", allow_children := true, require_parent := false }),
   ("text", { name := "text", allow_children := true, require_parent := true }),
   ("sop", { name := "sop", allow_children := true, require_parent := true })]

/-- `is_valid_block_type`: membership in the `BLOCK_TYPES` table. -/
def is_valid_block_type (block_type : String) : Bool :=
  (lookupKey BLOCK_TYPES block_type).isSome

/-- The table-level check constraint `ck_block_type`:
`type IN ('page', 'text', 'sop')`. -/
def ck_block_type (block_type : String) : Bool :=
  block_type = "page" ∨ block_type = "text" ∨ block_type = "sop"

/-- A `blocks` row as the block-tree writes see it. -/
structure BlockRec where
  id : Nat
  space_id : Nat
  parent_id : Option Nat
  type : String
  title : String
  sort : Int
deriving Repr, DecidableEq

/-- `Block.validate_for_creation`: unknown types reject; a type whose
configuration requires a parent rejects when `parent_id` is `None`. -/
def BlockRec.validate_for_creation (b : BlockRec) : Result Unit :=
  match lookupKey BLOCK_TYPES b.type with
  | none => .reject ("invalid block type: " ++ b.type)
  | some config =>
    if config.require_parent ∧ b.parent_id = none then
      .reject ("block type " ++ b.type ++ " requires a parent")
    else
      .resolve ()

/-- `_find_block_sort`: a supplied parent must exist; the next sibling sort
is `coalesce(max(sort), -1) + 1` over the `(space, parent)` siblings. -/
def _find_block_sort (blocks : List BlockRec) (space_id : Nat)
    (par_block_id : Option Nat) : Result Int :=
  match par_block_id with
  | some p =>
    if (blocks.filter (fun b => b.id = p)).isEmpty then
      .reject "Parent block not found"
    else
      .resolve (((blocks.filter
        (fun b => b.space_id = space_id ∧ b.parent_id = some p)).map
          BlockRec.sort).foldl max (-1) + 1)
  | none =>
    .resolve (((blocks.filter
      (fun b => b.space_id = space_id ∧ b.parent_id = none)).map
        BlockRec.sort).foldl max (-1) + 1)

/-- The value a Python `async def` call produces: a returned `Result`
object, a returned bare (non-`Result`) value, or an uncaught exception. -/
inductive PyReturn (α : Type) where
  | result (r : Result α)
  | bare (v : α)
  | raised (e : String)
deriving Repr, DecidableEq

/-- `create_new_page`: sibling-sort lookup, then construct a `page` block,
validate it, persist and resolve its id — every path returns a `Result`. -/
def create_new_page (blocks : List BlockRec) (space_id : Nat) (title : String)
    (par_block_id : Option Nat) (newId : Nat) : PyReturn Nat :=
  match _find_block_sort blocks space_id par_block_id with
  | .reject e => .result (.reject e)
  | .resolve next_sort =>
    let new_block : BlockRec :=
      { id := newId, space_id := space_id, parent_id := par_block_id,
        type := "page", title := title, sort := next_sort }
    match new_block.validate_for_creation with
    | .reject e => .result (.reject e)
    | .resolve _ => .result (.resolve newId)

/-- `write_sop_block_to_parent`: empty SOP data rejects; a missing space
**raises** `ValueError`; sort lookup and validation reject as `Result`s; an
empty (stripped) tool name rejects; but the success path executes
`return new_block.id` — a bare id, not a `Result`. -/
def write_sop_block_to_parent (blocks : List BlockRec) (spaces : List Nat)
    (space_id : Nat) (par_block_id : Option Nat) (sop_data : SOPData)
    (newId : Nat) : PyReturn Nat :=
  if sop_data.tool_sops = [] ∧ pyStrip sop_data.preferences = "" then
    .result (.reject "SOP data is empty")
  else if space_id ∈ spaces then
    match _find_block_sort blocks space_id par_block_id with
    | .reject e => .result (.reject e)
    | .resolve next_sort =>
      let new_block : BlockRec :=
        { id := newId, space_id := space_id, parent_id := par_block_id,
          type := "sop", title := sop_data.use_when, sort := next_sort }
      match new_block.validate_for_creation with
      | .reject e => .result (.reject e)
      | .resolve _ =>
        if sop_data.tool_sops.any (fun s => pyStrip s.tool_name = "") then
          .result (.reject "Tool name is empty")
        else
          .bare newId
  else
    .raised "ValueError: Space not found"

/-- C9 (divergence theorem): `create_new_page` does return a discriminated
`Result` on every path, but `write_sop_block_to_parent` breaks the
convention: a missing space raises `ValueError`, and the success path
returns the bare block id instead of a `Result` (despite its
`Result[asUUID]` annotation). -/
theorem write_sop_block_breaks_result_convention
    (blocks : List BlockRec) (spaces : List Nat) (space_id : Nat)
    (par_block_id : Option Nat) (sop_data : SOPData) (title : String) (newId : Nat) :
    (∃ r, create_new_page blocks space_id title par_block_id newId = .result r)
    ∧ (¬ (sop_data.tool_sops = [] ∧ pyStrip sop_data.preferences = "") →
        space_id ∉ spaces →
        write_sop_block_to_parent blocks spaces space_id par_block_id sop_data newId
          = .raised "ValueError: Space not found")
    ∧ (∀ sort_val, ¬ (sop_data.tool_sops = [] ∧ pyStrip sop_data.preferences = "") →
        space_id ∈ spaces →
        _find_block_sort blocks space_id par_block_id = .resolve sort_val →
        par_block_id ≠ none →
        sop_data.tool_sops.any (fun s => pyStrip s.tool_name = "") = false →
        write_sop_block_to_parent blocks spaces space_id par_block_id sop_data newId
          = .bare newId) := by
  refine ⟨?_, ?_, ?_⟩
  · unfold create_new_page
    cases hfs : _find_block_sort blocks space_id par_block_id with
    | reject e => exact ⟨.reject e, rfl⟩
    | resolve next_sort =>
      cases hv : BlockRec.validate_for_creation
          { id := newId, space_id := space_id, parent_id := par_block_id,
            type := "page", title := title, sort := next_sort } with
      | reject e => exact ⟨.reject e, by simp [hv]⟩
      | resolve u => exact ⟨.resolve newId, by simp [hv]⟩
  · intro hne hsp
    unfold write_sop_block_to_parent
    rw [if_neg hne, if_neg hsp]
  · intro sort_val hne hsp hfs hpar hnames
    obtain ⟨p, hp⟩ := Option.ne_none_iff_exists'.mp hpar
    subst hp
    have hval : BlockRec.validate_for_creation
        { id := newId, space_id := space_id, parent_id := some p,
          type := "sop", title := sop_data.use_when, sort := sort_val }
        = .resolve () := rfl
    simp only [write_sop_block_to_parent, if_neg hne, if_pos hsp, hfs, hval,
      hnames, Bool.false_eq_true, if_false]

/-- A concrete root page block in space 1. -/
def demoRootBlock : BlockRec :=
  { id := 5, space_id := 1, parent_id := none, type := "page", title := "root",
    sort := 0 }

/-- A concrete one-step SOP submission. -/
def demoSOPData : SOPData :=
  { use_when := "u", preferences := "p",
    tool_sops := [{ tool_name := "t", action := "a" }] }

/-- Witness for `write_sop_block_breaks_result_convention` at a concrete
store: space 1 with a root page block 5; a valid one-step SOP write under
parent 5 returns the bare id 6, and the same write against the missing
space 2 raises. -/
theorem write_sop_block_breaks_result_convention_witness :
    write_sop_block_to_parent [demoRootBlock] [1] 1 (some 5) demoSOPData 6
      = .bare 6
    ∧ write_sop_block_to_parent [demoRootBlock] [1] 2 (some 5) demoSOPData 6
      = .raised "ValueError: Space not found" := by
  constructor
  · exact (write_sop_block_breaks_result_convention
      [demoRootBlock] [1] 1 (some 5) demoSOPData "u" 6).2.2
      0 (by decide) (by decide) (by decide) (by decide) (by decide)
  · exact (write_sop_block_breaks_result_convention
      [demoRootBlock] [1] 2 (some 5) demoSOPData "u" 6).2.1
      (by decide) (by decide)

/-- C10: the block type `folder` is declared by `BLOCK_TYPES` (valid, allows
children, requires no parent) and passes `validate_for_creation` even
without a parent — yet the check constraint `ck_block_type`
(`type IN ('page','text','sop')`) excludes it, so a validated `folder`
block cannot actually be persisted; the constraint does admit the other
three configured types. -/
theorem folder_validates_but_ck_block_type_rejects :
    is_valid_block_type "folder" = true
    ∧ BlockRec.validate_for_creation
        { id := 1, space_id := 1, parent_id := none, type := "folder",
          title := "f", sort := 0 } = .resolve ()
    ∧ ck_block_type "folder" = false
    ∧ ck_block_type "page" = true
    ∧ ck_block_type "text" = true
    ∧ ck_block_type "sop" = true := by decide

end Acontext
